import Mathlib

/-!
Verification of the ComedyPlatformBuild scraper/matcher core.

Strings from the Python source are modelled as `List Char`; Python `None`
becomes `Option.none`.  Every definition below is a direct translation of a
function in `src/` (file and symbol named in its doc comment).
-/

namespace ComedyPlatform

/-- Python whitespace for `str.strip()` and the regex class `\s`
(space, tab, newline, carriage return, vertical tab, form feed). -/
def isPyWs (c : Char) : Bool :=
  c = ' ' || c = '\t' || c = '\n' || c = '\x0d' || c = Char.ofNat 11 || c = Char.ofNat 12

/-- Python `str.strip()` with no arguments: drop leading and trailing whitespace. -/
def pyStrip (s : List Char) : List Char :=
  ((s.dropWhile isPyWs).reverse.dropWhile isPyWs).reverse

/-- Python `str.lower()` (ASCII fragment, which is all the sources use). -/
def pyLower (s : List Char) : List Char := s.map Char.toLower

/-- Python `str.upper()` (ASCII fragment). -/
def pyUpper (s : List Char) : List Char := s.map Char.toUpper

/-- Split a list at the first occurrence of the (nonempty) pattern `sep`,
returning the part before it and the part after it. -/
def breakOnSub (sep : List Char) : List Char → Option (List Char × List Char)
  | [] => none
  | c :: rest =>
    if sep.isPrefixOf (c :: rest) then some ([], (c :: rest).drop sep.length)
    else match breakOnSub sep rest with
      | some (pre, post) => some (c :: pre, post)
      | none => none

theorem breakOnSub_length {sep s pre post : List Char} (hsep : sep ≠ []) :
    breakOnSub sep s = some (pre, post) → post.length < s.length := by
  induction s generalizing pre post with
  | nil => intro h; simp [breakOnSub] at h
  | cons c rest ih =>
    intro h
    rw [breakOnSub] at h
    split at h
    · cases h
      have h1 : 0 < sep.length := List.length_pos.mpr hsep
      simp only [List.length_drop, List.length_cons]
      omega
    · revert h
      cases hrec : breakOnSub sep rest with
      | none => intro h; simp at h
      | some pp =>
        obtain ⟨pre', post'⟩ := pp
        intro h
        cases h
        have := ih hrec
        simp only [List.length_cons]
        omega

/-- Python `sub in s` (substring test) for a nonempty pattern. -/
def containsSub (s sub : List Char) : Bool :=
  sub = [] || (breakOnSub sub s).isSome

/-- Python `s.split(sep)` for a nonempty separator, by recursion on fuel.
Each step removes at least one character (`breakOnSub_length`), so any fuel
above `s.length` is enough; the out-of-fuel branch is unreachable. -/
def splitOnSubFuel (sep : List Char) : Nat → List Char → List (List Char)
  | 0, s => [s]
  | fuel + 1, s =>
    match breakOnSub sep s with
    | none => [s]
    | some (pre, post) => pre :: splitOnSubFuel sep fuel post

/-- Python `s.split(sep)` for a nonempty separator `sep`. -/
def splitOnSub (s sep : List Char) : List (List Char) :=
  if sep = [] then [s] else splitOnSubFuel sep (s.length + 1) s

/-- Python `s.replace(sub, repl)` for a nonempty `sub`, by recursion on fuel
(sufficient for the same reason as `splitOnSubFuel`). -/
def replaceSubFuel (sub repl : List Char) : Nat → List Char → List Char
  | 0, s => s
  | fuel + 1, s =>
    match breakOnSub sub s with
    | none => s
    | some (pre, post) => pre ++ repl ++ replaceSubFuel sub repl fuel post

/-- Python `s.replace(sub, repl)` for a nonempty `sub`. -/
def replaceSub (s sub repl : List Char) : List Char :=
  if sub = [] then s else replaceSubFuel sub repl (s.length + 1) s

/-- Python `str.split()` with no arguments: split on whitespace runs,
discarding empty pieces. -/
def splitWsAux : List Char → List Char → List (List Char)
  | [], acc => if acc = [] then [] else [acc.reverse]
  | c :: rest, acc =>
    if isPyWs c then
      if acc = [] then splitWsAux rest []
      else acc.reverse :: splitWsAux rest []
    else splitWsAux rest (c :: acc)

def splitWs (s : List Char) : List (List Char) := splitWsAux s []

/-- `c` viewed as a decimal digit. -/
def digitVal (c : Char) : Nat := c.toNat - 48

/-- `lo ≤ c ≤ hi` on code points; used for the regex character classes. -/
def between (c : Char) (lo hi : Nat) : Bool := lo ≤ c.toNat && c.toNat ≤ hi

def isDigitCh (c : Char) : Bool := between c 48 57

/-- Two-digit zero-padded decimal rendering, as `strftime` `%H`/`%M`/`%I` produce. -/
def pad2 (n : Nat) : List Char := [Char.ofNat (48 + n / 10), Char.ofNat (48 + n % 10)]

/-- `strftime("%H:%M")` of an hour/minute pair. -/
def fmt24 (h m : Nat) : List Char := pad2 h ++ ':' :: pad2 m

/-!  `datetime.strptime` directive regexes (from CPython `_strptime`):
`%I` is `1[0-2]|0[1-9]|[1-9]`, `%H` is `2[0-3]|[0-1]\d|\d`,
`%M` is `[0-5]\d|\d`, `%p` is `AM|PM` (case-insensitive).
Each candidate list is ordered as the regex alternatives are, so feeding it to
`findSome?` reproduces the backtracking order. -/

def hourCands12 : List Char → List (Nat × List Char)
  | [] => []
  | a :: rest =>
    (if a = '1' then
      (match rest with
       | c :: rest' => if between c 48 50 then [(10 + digitVal c, rest')] else []
       | [] => [])
     else []) ++
    (if a = '0' then
      (match rest with
       | c :: rest' => if between c 49 57 then [(digitVal c, rest')] else []
       | [] => [])
     else []) ++
    (if between a 49 57 then [(digitVal a, rest)] else [])

def hourCands24 : List Char → List (Nat × List Char)
  | [] => []
  | a :: rest =>
    (if a = '2' then
      (match rest with
       | b :: rest' => if between b 48 51 then [(20 + digitVal b, rest')] else []
       | [] => [])
     else []) ++
    (if a = '0' || a = '1' then
      (match rest with
       | b :: rest' => if isDigitCh b then [(10 * digitVal a + digitVal b, rest')] else []
       | [] => [])
     else []) ++
    (if isDigitCh a then [(digitVal a, rest)] else [])

def minuteCands : List Char → List (Nat × List Char)
  | [] => []
  | a :: rest =>
    (if between a 48 53 then
      (match rest with
       | b :: rest' => if isDigitCh b then [(10 * digitVal a + digitVal b, rest')] else []
       | [] => [])
     else []) ++
    (if isDigitCh a then [(digitVal a, rest)] else [])

def ampmCands : List Char → List (Bool × List Char)
  | c :: d :: rest =>
    if (c = 'A' || c = 'a') && (d = 'M' || d = 'm') then [(false, rest)]
    else if (c = 'P' || c = 'p') && (d = 'M' || d = 'm') then [(true, rest)]
    else []
  | _ => []

/-- The hour-of-day a `datetime` built from a 12-hour hour plus AM/PM reports. -/
def to24Hour (h12 : Nat) (pm : Bool) : Nat :=
  if pm then (if h12 = 12 then 12 else h12 + 12)
  else (if h12 = 12 then 0 else h12)

/-- `strptime(s, "%I:%M%p")`, returning the 24-hour hour and the minute. -/
def parseIMp (cs : List Char) : Option (Nat × Nat) :=
  (hourCands12 cs).findSome? fun hc =>
    match hc.2 with
    | ':' :: r2 =>
      (minuteCands r2).findSome? fun mc =>
        (ampmCands mc.2).findSome? fun pc =>
          if pc.2 = [] then some (to24Hour hc.1 pc.1, mc.1) else none
    | _ => none

/-- `strptime(s, "%I%p")`, returning the 24-hour hour and minute 0. -/
def parseIp (cs : List Char) : Option (Nat × Nat) :=
  (hourCands12 cs).findSome? fun hc =>
    (ampmCands hc.2).findSome? fun pc =>
      if pc.2 = [] then some (to24Hour hc.1 pc.1, 0) else none

/-- `strptime(s, "%H:%M")`. -/
def parseHM (cs : List Char) : Option (Nat × Nat) :=
  (hourCands24 cs).findSome? fun hc =>
    match hc.2 with
    | ':' :: r2 =>
      (minuteCands r2).findSome? fun mc =>
        if mc.2 = [] then some (hc.1, mc.1) else none
    | _ => none

/-- The normalisation `_convert_to_24hr` applies before parsing:
`time_str.strip().upper().replace(" ", "")`. -/
def pyTimeNorm (s : List Char) : List Char :=
  (pyUpper (pyStrip s)).filter (· ≠ ' ')

/-- The parse step of `_convert_to_24hr`: `"%I:%M%p"` when the string
contains a colon, `"%I%p"` otherwise. -/
def convertParse (t : List Char) : Option (Nat × Nat) :=
  if t.contains ':' then parseIMp t else parseIp t

/-- `_convert_to_24hr` from `src/scrapers/badslava.py` (and, identically,
`src/scrapers/comedy_listings.py`): converts `'7:00pm'` to `'19:00'`;
on a parse failure it returns the normalised string. -/
def convertTo24hr (s : List Char) : List Char :=
  let t := pyTimeNorm s
  match convertParse t with
  | some (h, m) => fmt24 h m
  | none => t

/-- `_format_display_time` from `src/scrapers/firemics.py`:
`'20:00'` becomes `'8:00 PM'`; an unparsable input is returned unchanged. -/
def formatDisplayTime (s : List Char) : List Char :=
  match parseHM s with
  | some (h, m) =>
    let h12 := if h % 12 = 0 then 12 else h % 12
    ((pad2 h12 ++ ':' :: pad2 m) ++ ' ' ::
      (if h < 12 then ['A', 'M'] else ['P', 'M'])).dropWhile (· = '0')
  | none => s

/-!  ## Data model

The canonical "mic" record shape shared by the extractors and the matcher.
Python `None` (or an absent key) is `none`; `get(k, "")` defaults are `[]`. -/

structure MicRecord where
  name : Option (List Char) := none
  venue : Option (List Char) := none
  address : Option (List Char) := none
  neighborhood : Option (List Char) := none
  borough : Option (List Char) := none
  day_of_week : List Char := []
  start_time : List Char := []
  display_time : Option (List Char) := none
  cost : Option (List Char) := none
  signup_method : Option (List Char) := none
  signup_url : Option (List Char) := none
  signup_notes : Option (List Char) := none
  venue_url : Option (List Char) := none
  instagram : Option (List Char) := none
  is_biweekly : Nat := 0
  notes : Option (List Char) := none
  source : List Char := []
deriving DecidableEq, Repr

/-- Python `x or ""` on an optional string. -/
def orEmpty : Option (List Char) → List Char
  | none => []
  | some s => s

/-- `(rec.get(field) or "").lower().strip()` -/
def lowStrip (o : Option (List Char)) : List Char := pyStrip (pyLower (orEmpty o))

/-- The stopword set `{"the", "a", "an", "of", "at", "in"}` used for venue words. -/
def venueStop : List (List Char) :=
  ["the".toList, "a".toList, "an".toList, "of".toList, "at".toList, "in".toList]

/-- The stopword set used by the firemics name comparison: the venue stopwords
plus `"open"` and `"mic"`. -/
def nameStop : List (List Char) := venueStop ++ ["open".toList, "mic".toList]

/-- `set(s.split()) - stop`, viewed as the list of significant words
(possibly with duplicates; set operations below are duplicate-insensitive). -/
def sigWords (s : List Char) (stop : List (List Char)) : List (List Char) :=
  (splitWs s).filter (fun w => !stop.contains w)

/-- Python `bool(set1 & set2)`: the two word lists share a token. -/
def sharesWord (a b : List (List Char)) : Bool := a.any (fun w => b.contains w)

/-- Python `len(set1 & set2)`: number of distinct shared tokens. -/
def sharedCount (a b : List (List Char)) : Nat :=
  (a.dedup.filter (fun w => b.contains w)).length

/-!  ## Matcher / deduplicator -/

/-- One pass of the inner loop of `compare_badslava_with_database`
(`src/scrapers/badslava.py`): does the existing record `e` match the
scraped record `s`?  First venue-word overlap plus equal weekday, else
matching 10-character address prefix plus equal weekday. -/
def bsMatch (s e : MicRecord) : Bool :=
  let sW := sigWords (lowStrip s.venue) venueStop
  let eW := sigWords (lowStrip e.venue) venueStop
  (sharesWord sW eW && s.day_of_week == e.day_of_week) ||
  (match e.address, s.address with
   | some ea, some sa =>
     !(ea == []) && !(sa == []) &&
       (pyLower (ea.take 10) == pyLower (sa.take 10)) && s.day_of_week == e.day_of_week
   | _, _ => false)

/-- The `if not s_venue or not s_day: continue` guard of
`compare_badslava_with_database`: a scraped record is only considered when
its venue (lowered and stripped) and its weekday are nonempty. -/
def bsGuard (s : MicRecord) : Bool :=
  !(lowStrip s.venue == []) && !(s.day_of_week == [])

/-- `compare_badslava_with_database` (`src/scrapers/badslava.py`): partitions
scraped records into the `new_mics` list and a count of matched records. -/
def compareBadslava (scraped existing : List MicRecord) : List MicRecord × Nat :=
  match scraped with
  | [] => ([], 0)
  | s :: rest =>
    let r := compareBadslava rest existing
    if bsGuard s then
      if existing.any (fun e => bsMatch s e) then (r.1, r.2 + 1)
      else (s :: r.1, r.2)
    else r

/-- One pass of the inner loop of `compare_firemics_with_database`
(`src/scrapers/firemics.py`): skip on different weekday, else venue-word
overlap, else at least two distinct shared name words. -/
def fmMatch (s e : MicRecord) : Bool :=
  if !(e.day_of_week == s.day_of_week) then false
  else
    let sW := sigWords (lowStrip s.venue) venueStop
    let eW := sigWords (lowStrip e.venue) venueStop
    if sharesWord sW eW then true
    else
      let sN := sigWords (lowStrip s.name) nameStop
      let eN := sigWords (lowStrip e.name) nameStop
      sharesWord sN eN && decide (2 ≤ sharedCount sN eN)

/-- The `if not s_day: continue` guard of `compare_firemics_with_database`. -/
def fmGuard (s : MicRecord) : Bool := !(s.day_of_week == [])

/-- `compare_firemics_with_database` (`src/scrapers/firemics.py`). -/
def compareFiremics (scraped existing : List MicRecord) : List MicRecord × Nat :=
  match scraped with
  | [] => ([], 0)
  | s :: rest =>
    let r := compareFiremics rest existing
    if fmGuard s then
      if existing.any (fun e => fmMatch s e) then (r.1, r.2 + 1)
      else (s :: r.1, r.2)
    else r

/-- The duplicate relation exactly as claim C1 words it: same weekday and
(venue word sets share a token, or name word sets share at least two tokens,
or the first 10 characters of the addresses agree case-insensitively). -/
def claimedMatch (s e : MicRecord) : Bool :=
  s.day_of_week == e.day_of_week &&
  (sharesWord (sigWords (pyLower (orEmpty s.venue)) venueStop)
      (sigWords (pyLower (orEmpty e.venue)) venueStop)
   || decide (2 ≤ sharedCount (sigWords (pyLower (orEmpty s.name)) nameStop)
      (sigWords (pyLower (orEmpty e.name)) nameStop))
   || pyLower ((orEmpty s.address).take 10) == pyLower ((orEmpty e.address).take 10))

/-!  ## Badslava extractor (`src/scrapers/badslava.py`) -/

theorem dropWhileLenLe (p : Char → Bool) (l : List Char) :
    (l.dropWhile p).length ≤ l.length := by
  induction l with
  | nil => simp [List.dropWhile]
  | cons c rest ih =>
    rw [List.dropWhile]
    split
    · simp only [List.length_cons]; omega
    · simp

/-- The regex substitution `re.sub(r'<.*?>', '', text)`: from each `<`, if a
`>` follows with no newline in between, remove through that `>`
(`.` does not match newlines without `re.DOTALL`). -/
def stripHtmlFuel : Nat → List Char → List Char
  | 0, s => s
  | fuel + 1, s =>
    match s with
    | [] => []
    | c :: rest =>
      if c = '<' then
        match rest.dropWhile (fun d => !(d = '>' || d = '\n')) with
        | '>' :: post' => stripHtmlFuel fuel post'
        | _ => c :: stripHtmlFuel fuel rest
      else c :: stripHtmlFuel fuel rest

def stripHtmlChars (s : List Char) : List Char := stripHtmlFuel (s.length + 1) s

/-- `_strip_html` from `src/scrapers/badslava.py`:
`re.sub(r'<.*?>', '', text).replace("\\/", "/")`. -/
def stripHtml (s : List Char) : List Char :=
  replaceSub (stripHtmlChars s) "\\/".toList "/".toList

/-- The `neighborhood_hints` dict of `_guess_neighborhood`
(`src/scrapers/badslava.py`), in literal (= iteration) order. -/
def bsNeighborhoodHints : List (List Char × List Char) :=
  [("rivington", "LES"), ("orchard", "LES"), ("ludlow", "LES"),
   ("st marks", "East Village"), ("e. 1", "East Village"),
   ("macdougal", "Greenwich Village"), ("bleecker", "Greenwich Village"),
   ("sullivan", "Greenwich Village"),
   ("vandam", "SoHo"), ("spring", "SoHo"),
   ("w. 7", "UWS"), ("w. 8", "UWS"), ("broadway", "Midtown"),
   ("2nd ave", "UES"), ("1st ave", "East Village"),
   ("atlantic", "Brooklyn"), ("fulton", "Brooklyn"),
   ("5th ave", "Park Slope"),
   ("harlem", "Harlem"), ("nicholas", "Harlem"),
   ("astoria", "Astoria"),
   ("bruckner", "Bronx")].map (fun p => (p.1.toList, p.2.toList))

/-- `_guess_neighborhood` from `src/scrapers/badslava.py`. -/
def bsGuessNeighborhood (address city_state : List Char) : Option (List Char) :=
  let combined := pyLower (address ++ ' ' :: city_state)
  (bsNeighborhoodHints.find? (fun p => containsSub combined p.1)).map (fun p => p.2)

/-- `_guess_borough` from `src/scrapers/badslava.py`. -/
def bsGuessBorough (city_state : List Char) (neighborhood : Option (List Char)) : List Char :=
  let combined := pyLower city_state
  if containsSub combined "brooklyn".toList then "Brooklyn".toList
  else if containsSub combined "bronx".toList then "Bronx".toList
  else if containsSub combined "queens".toList || containsSub combined "astoria".toList then
    "Queens".toList
  else if containsSub combined "staten island".toList then "Staten Island".toList
  else if (match neighborhood with
    | some n => (["Brooklyn", "Park Slope", "Gowanus", "Williamsburg", "Bushwick",
        "South Slope"].map String.toList).contains n
    | none => false) then "Brooklyn".toList
  else "Manhattan".toList

/-- The `valid_days` set of `scrape_badslava`. -/
def validDays : List (List Char) :=
  ["Monday", "Tuesday", "Wednesday", "Thursday", "Friday", "Saturday",
   "Sunday"].map String.toList

/-- The `NYC_CITIES` set of `src/scrapers/badslava.py`. -/
def nycCities : List (List Char) :=
  ["new york", "brooklyn", "bronx", "queens", "staten island",
   "long island city", "astoria", "flushing", "jamaica"].map String.toList

/-- `entry.replace("\n", "").split("<br>")` with every field stripped. -/
def bsFields (entry : List Char) : List (List Char) :=
  (splitOnSub (entry.filter (fun c => !(c = '\n'))) "<br>".toList).map pyStrip

/-- `city_state.lower().split(",")[0].strip()` from `scrape_badslava`. -/
def bsCityLower (city_state : List Char) : List Char :=
  pyStrip ((splitOnSub (pyLower city_state) [',']).headD [])

/-- One iteration of the entry loop of `scrape_badslava`
(`src/scrapers/badslava.py` lines 148–216): `none` exactly when the loop
`continue`s (fewer than 6 fields, non-NYC city, or invalid weekday).
The `phone` field (`fields[8]`) is extracted by the source but never used. -/
def parseBadslavaEntry (entry : List Char) : Option MicRecord :=
  let fields := bsFields entry
  if fields.length < 6 then none
  else
    let day := pyStrip (fields.getD 0 [])
    let mic_name0 := pyStrip (stripHtml (fields.getD 1 []))
    let venue_name := pyStrip (stripHtml (fields.getD 2 []))
    let address := pyStrip (stripHtml (fields.getD 3 []))
    let city_state := pyStrip (stripHtml (fields.getD 4 []))
    let time_str := pyStrip (fields.getD 5 [])
    let cost := if 6 < fields.length then some (pyStrip (stripHtml (fields.getD 6 []))) else none
    let frequency :=
      if 7 < fields.length then some (pyStrip (stripHtml (fields.getD 7 []))) else none
    let city_lower := bsCityLower city_state
    if !(nycCities.any (fun c => containsSub city_lower c)) then none
    else
      let is_biweekly := match frequency with
        | some f => containsSub (pyLower f) "biweekly".toList
        | none => false
      let is_monthly := match frequency with
        | some f => containsSub (pyLower f) "monthly".toList
        | none => false
      let mic_name := if mic_name0 = [] then venue_name ++ " Open Mic".toList else mic_name0
      if !(validDays.contains day) then none
      else
        let neighborhood := bsGuessNeighborhood address city_state
        some {
          name := some mic_name
          venue := some venue_name
          address := some address
          neighborhood := neighborhood
          borough := some (bsGuessBorough city_state neighborhood)
          day_of_week := day
          start_time := convertTo24hr time_str
          display_time := some (replaceSub (replaceSub (pyUpper time_str)
            "PM".toList " PM".toList) "AM".toList " AM".toList)
          cost := cost
          signup_method := some "in_person".toList
          is_biweekly := if is_biweekly then 1 else 0
          notes := if is_monthly then some ("Frequency: ".toList ++ orEmpty frequency) else none
          source := "badslava".toList }

/-- The prefix part of the regex `var\s+venue\s*=\s*\[`: if it matches at the
head of `s`, return the remainder after the `[`. -/
def matchVarVenue (s : List Char) : Option (List Char) :=
  if "var".toList.isPrefixOf s then
    match s.drop 3 with
    | c :: _ =>
      if isPyWs c then
        let r2 := (s.drop 3).dropWhile isPyWs
        if "venue".toList.isPrefixOf r2 then
          match (r2.drop 5).dropWhile isPyWs with
          | '=' :: r4 =>
            match r4.dropWhile isPyWs with
            | '[' :: r6 => some r6
            | _ => none
          | _ => none
        else none
      else none
    | [] => none
  else none

/-- `re.search(r'var\s+venue\s*=\s*\[(.*?)\];', page_text, re.DOTALL)`:
leftmost match, lazily capturing up to the first `];`. -/
def findVenueArray : List Char → Option (List Char)
  | [] => none
  | c :: rest =>
    match matchVarVenue (c :: rest) with
    | some after =>
      match breakOnSub "];".toList after with
      | some (cap, _) => some cap
      | none => findVenueArray rest
    | none => findVenueArray rest

/-- `re.findall(r'"([^"]*)"', raw_array)`: the texts of successive
double-quoted spans. -/
def extractQuotedFuel : Nat → List Char → List (List Char)
  | 0, _ => []
  | fuel + 1, s =>
    match s with
    | [] => []
    | c :: rest =>
      if c = '"' then
        match rest.dropWhile (fun d => !(d = '"')) with
        | _ :: post' => rest.takeWhile (fun d => !(d = '"')) :: extractQuotedFuel fuel post'
        | [] => []
      else extractQuotedFuel fuel rest

def extractQuoted (s : List Char) : List (List Char) := extractQuotedFuel (s.length + 1) s

/-- The outcome of the single `requests.get` an extractor performs: the two
caught exception classes, or a response with a status code and a body. -/
inductive FetchResult (α : Type) where
  | timeout
  | connError
  | status (code : Nat) (body : α)

/-- The result dict of `scrape_badslava`. -/
structure BsResult where
  mics : List MicRecord
  all_count : Nat
  nyc_count : Nat
  errors : List (List Char)
deriving DecidableEq, Repr

def bsStatusErr (code : Nat) : List Char := "Got status code ".toList ++ (Nat.repr code).toList
def bsTimeoutErr : List Char := "Request timed out after 15 seconds.".toList
def bsConnErr : List Char := "Couldn't connect to badslava.com.".toList
def bsNoArrayErr : List Char :=
  ("Could not find the 'venue' JavaScript array in the page. " ++
   "Bad Slava may have changed their page structure.").toList

/-- `scrape_badslava` (`src/scrapers/badslava.py`), parameterised by the
outcome of its one HTTP GET. -/
def scrapeBadslava (fetch : FetchResult (List Char)) : BsResult :=
  match fetch with
  | .timeout => ⟨[], 0, 0, [bsTimeoutErr]⟩
  | .connError => ⟨[], 0, 0, [bsConnErr]⟩
  | .status code body =>
    if code ≠ 200 then ⟨[], 0, 0, [bsStatusErr code]⟩
    else match findVenueArray body with
      | none => ⟨[], 0, 0, [bsNoArrayErr]⟩
      | some raw =>
        let entries := extractQuoted raw
        let mics := entries.filterMap parseBadslavaEntry
        ⟨mics, entries.length, mics.length, []⟩

/-!  ## Comedy Listings extractor (`src/scrapers/comedy_listings.py`)

Only the per-day fetch loop is modelled here; the page body is an opaque
type `α` and `_parse_page` (which runs on the external BeautifulSoup tree)
is passed in as a function of the body and the day title. -/

/-- The inner `for pattern in URL_PATTERNS` loop: first 200 response wins,
other statuses move to the next pattern, an exception escapes the loop. -/
inductive ClFetchStep (α : Type) where
  | ok (body : α)
  | timeoutExn
  | connExn
  | exhausted

def clTry {α : Type} : List (FetchResult α) → ClFetchStep α
  | [] => .exhausted
  | .timeout :: _ => .timeoutExn
  | .connError :: _ => .connExn
  | .status code body :: rest => if code = 200 then .ok body else clTry rest

/-- The result dict of `scrape_comedy_listings`. -/
structure ClResult where
  mics : List MicRecord
  errors : List (List Char)
  pages_scraped : Nat
deriving DecidableEq, Repr

def clTimeoutMsg (day : List Char) : List Char :=
  day ++ ": Request timed out after 15 seconds.".toList
def clConnMsg (day : List Char) : List Char :=
  day ++ ": Couldn't connect. Site might be down.".toList
def clExhaustedMsg (day : List Char) : List Char :=
  day ++ (": All URL patterns returned errors (last: no response). " ++
    "The site may be blocking automated requests or has changed its URL structure. " ++
    "This is common with Squarespace sites — they often require JavaScript to render.").toList
def clNoParseMsg (day : List Char) : List Char :=
  day ++ (": Page loaded but couldn't parse any listings. " ++
    "The site structure may have changed.").toList

def clDays : List (List Char) :=
  ["Monday", "Tuesday", "Wednesday", "Thursday", "Friday", "Saturday",
   "Sunday"].map String.toList

/-- The `for day in DAYS` loop of `scrape_comedy_listings`: `fetch i j` is the
response to URL pattern `j` on day index `i`. -/
def clRun {α : Type} (fetch : Nat → Nat → FetchResult α)
    (parsePage : α → List Char → List MicRecord) :
    List (Nat × List Char) → ClResult
  | [] => ⟨[], [], 0⟩
  | (i, day) :: rest =>
    let r := clRun fetch parsePage rest
    match clTry [fetch i 0, fetch i 1, fetch i 2] with
    | .ok body =>
      let found := parsePage body day
      if found.isEmpty then ⟨r.mics, clNoParseMsg day :: r.errors, r.pages_scraped⟩
      else ⟨found ++ r.mics, r.errors, r.pages_scraped + 1⟩
    | .timeoutExn => ⟨r.mics, clTimeoutMsg day :: r.errors, r.pages_scraped⟩
    | .connExn => ⟨r.mics, clConnMsg day :: r.errors, r.pages_scraped⟩
    | .exhausted => ⟨r.mics, clExhaustedMsg day :: r.errors, r.pages_scraped⟩

/-- `scrape_comedy_listings` (`src/scrapers/comedy_listings.py`),
parameterised by fetch outcomes and by `_parse_page`. -/
def scrapeComedyListings {α : Type} (fetch : Nat → Nat → FetchResult α)
    (parsePage : α → List Char → List MicRecord) : ClResult :=
  clRun fetch parsePage clDays.enum

/-!  ## EastVille extractor, JSON-LD block stage (`src/scrapers/eastville.py`)

A decoded JSON document (the output of the external `json.loads`). -/

inductive Json where
  | null
  | bool (b : Bool)
  | num (n : Int)
  | str (s : List Char)
  | arr (elems : List Json)
  | obj (fields : List (List Char × Json))

/-- `data.get("@type") in ("ComedyEvent", "Event")`. -/
def isEventType : Option Json → Bool
  | some (.str t) => t == "ComedyEvent".toList || t == "Event".toList
  | _ => false

/-- Python `events.extend(v)`: the elements `v` contributes when it is
iterable.  A dict iterates over its keys and a string over its characters;
`null`/`bool`/`num` raise `TypeError` (see `blockRaises`). -/
def pyIterElems : Json → List Json
  | .arr l => l
  | .obj kvs => kvs.map (fun kv => .str kv.1)
  | .str s => s.map (fun c => .str [c])
  | _ => []

/-- The body of the `for tag in json_ld_tags` success path
(`src/scrapers/eastville.py` lines 137–152): flatten one decoded block
into events. -/
def flattenJsonLd : Json → List Json
  | .arr l => l
  | .obj kvs =>
    if isEventType (kvs.lookup "@type".toList) then [.obj kvs]
    else if (kvs.lookup "@graph".toList).isSome then
      pyIterElems ((kvs.lookup "@graph".toList).getD .null)
    else match kvs.lookup "event".toList with
      | some (.arr l) => l
      | some v => [v]
      | none => []
  | _ => []

/-- `true` when processing the decoded block would raise a `TypeError`
(`events.extend` on a non-iterable `@graph` value) — which the per-block
`except json.JSONDecodeError` would not catch. -/
def blockRaises : Json → Bool
  | .obj kvs =>
    if isEventType (kvs.lookup "@type".toList) then false
    else match kvs.lookup "@graph".toList with
      | some (.arr _) => false
      | some (.obj _) => false
      | some (.str _) => false
      | some _ => true
      | none => false
  | _ => false

/-- `f"Failed to parse a JSON-LD block: {str(e)}"`. -/
def jsonLdErr (e : List Char) : List Char :=
  "Failed to parse a JSON-LD block: ".toList ++ e

/-- The `for tag in json_ld_tags` loop of `scrape_eastville`: each block is
the outcome of `json.loads` on one `<script type="application/ld+json">`
tag (`Except.error` carries the `JSONDecodeError` text).  Returns the
flattened event list and the error list. -/
def processJsonLdBlocks : List (Except (List Char) Json) → List Json × List (List Char)
  | [] => ([], [])
  | b :: rest =>
    let r := processJsonLdBlocks rest
    match b with
    | .error e => (r.1, jsonLdErr e :: r.2)
    | .ok j => (flattenJsonLd j ++ r.1, r.2)

/-!  ## Record store (`src/utils/database.py`) -/

/-- The row `add_mic` (`src/utils/database.py`) actually inserts: the input
dict minus the `'id'` and `'source'` keys
(`{k: v for k, v in data_dict.items() if k not in ['id', 'source']}`). -/
def addMicClean {V : Type} (d : List (List Char × V)) : List (List Char × V) :=
  d.filter (fun kv => !(kv.1 == "id".toList || kv.1 == "source".toList))

/-!  ## Helper lemmas -/

theorem mem_ifList {α : Type} {x : α} {c : Prop} [Decidable c] {l : List α}
    (h : x ∈ if c then l else []) : c ∧ x ∈ l := by
  split at h
  · exact ⟨by assumption, h⟩
  · simp at h

theorem hourCands12_bound {cs : List Char} {x : Nat} {r : List Char} :
    (x, r) ∈ hourCands12 cs → 1 ≤ x ∧ x ≤ 12 := by
  intro h
  cases cs with
  | nil => simp [hourCands12] at h
  | cons a rest =>
    rw [hourCands12.eq_def] at h
    rcases List.mem_append.1 h with h12 | h3
    · rcases List.mem_append.1 h12 with h1 | h2
      · obtain ⟨-, h1'⟩ := mem_ifList h1
        cases rest with
        | nil => simp at h1'
        | cons c rest' =>
          obtain ⟨hc, h1''⟩ := mem_ifList h1'
          simp only [List.mem_singleton, Prod.mk.injEq] at h1''
          obtain ⟨hx, -⟩ := h1''
          simp only [between, Bool.and_eq_true, decide_eq_true_eq] at hc
          unfold digitVal at hx
          omega
      · obtain ⟨-, h2'⟩ := mem_ifList h2
        cases rest with
        | nil => simp at h2'
        | cons c rest' =>
          obtain ⟨hc, h2''⟩ := mem_ifList h2'
          simp only [List.mem_singleton, Prod.mk.injEq] at h2''
          obtain ⟨hx, -⟩ := h2''
          simp only [between, Bool.and_eq_true, decide_eq_true_eq] at hc
          unfold digitVal at hx
          omega
    · obtain ⟨ha, h3'⟩ := mem_ifList h3
      simp only [List.mem_singleton, Prod.mk.injEq] at h3'
      obtain ⟨hx, -⟩ := h3'
      simp only [between, Bool.and_eq_true, decide_eq_true_eq] at ha
      unfold digitVal at hx
      omega

theorem minuteCands_bound {cs : List Char} {x : Nat} {r : List Char} :
    (x, r) ∈ minuteCands cs → x ≤ 59 := by
  intro h
  cases cs with
  | nil => simp [minuteCands] at h
  | cons a rest =>
    rw [minuteCands.eq_def] at h
    rcases List.mem_append.1 h with h1 | h2
    · obtain ⟨ha, h1'⟩ := mem_ifList h1
      cases rest with
      | nil => simp at h1'
      | cons b rest' =>
        obtain ⟨hb, h1''⟩ := mem_ifList h1'
        simp only [List.mem_singleton, Prod.mk.injEq] at h1''
        obtain ⟨hx, -⟩ := h1''
        simp only [between, Bool.and_eq_true, decide_eq_true_eq] at ha
        simp only [isDigitCh, between, Bool.and_eq_true, decide_eq_true_eq] at hb
        unfold digitVal at hx
        omega
    · obtain ⟨ha, h2'⟩ := mem_ifList h2
      simp only [List.mem_singleton, Prod.mk.injEq] at h2'
      obtain ⟨hx, -⟩ := h2'
      simp only [isDigitCh, between, Bool.and_eq_true, decide_eq_true_eq] at ha
      unfold digitVal at hx
      omega

theorem to24Hour_lt {h12 : Nat} (pm : Bool) (h1 : 1 ≤ h12) (h2 : h12 ≤ 12) :
    to24Hour h12 pm < 24 := by
  unfold to24Hour
  split <;> split <;> omega

theorem parseIMp_bound {cs : List Char} {h m : Nat} :
    parseIMp cs = some (h, m) → h < 24 ∧ m < 60 := by
  intro hp
  unfold parseIMp at hp
  obtain ⟨⟨x, r⟩, hmem1, hf⟩ := List.exists_of_findSome?_eq_some hp
  simp only at hf
  split at hf
  · obtain ⟨⟨mv, mr⟩, hmem2, hf2⟩ := List.exists_of_findSome?_eq_some hf
    obtain ⟨⟨pb, pr⟩, -, hf3⟩ := List.exists_of_findSome?_eq_some hf2
    simp only at hf3
    split at hf3
    · simp only [Option.some.injEq, Prod.mk.injEq] at hf3
      obtain ⟨hh, hm⟩ := hf3
      subst hh; subst hm
      obtain ⟨hb1, hb2⟩ := hourCands12_bound hmem1
      have hb3 := minuteCands_bound hmem2
      exact ⟨to24Hour_lt pb hb1 hb2, by omega⟩
    · cases hf3
  · cases hf

theorem parseIp_bound {cs : List Char} {h m : Nat} :
    parseIp cs = some (h, m) → h < 24 ∧ m < 60 := by
  intro hp
  unfold parseIp at hp
  obtain ⟨⟨x, r⟩, hmem1, hf⟩ := List.exists_of_findSome?_eq_some hp
  obtain ⟨⟨pb, pr⟩, -, hf2⟩ := List.exists_of_findSome?_eq_some hf
  simp only at hf2
  split at hf2
  · simp only [Option.some.injEq, Prod.mk.injEq] at hf2
    obtain ⟨hh, hm⟩ := hf2
    subst hh; subst hm
    obtain ⟨hb1, hb2⟩ := hourCands12_bound hmem1
    exact ⟨to24Hour_lt pb hb1 hb2, by omega⟩
  · cases hf2

theorem convertParse_bound {t : List Char} {h m : Nat} :
    convertParse t = some (h, m) → h < 24 ∧ m < 60 := by
  intro hp
  unfold convertParse at hp
  split at hp
  · exact parseIMp_bound hp
  · exact parseIp_bound hp

/-- The duplicate condition of the badslava matcher, factored as the amended
claim states it: same weekday and (venue-word overlap, or both addresses
nonempty with equal first ten characters case-insensitively). -/
def bsClaimMatch (s e : MicRecord) : Bool :=
  s.day_of_week == e.day_of_week &&
  (sharesWord (sigWords (lowStrip s.venue) venueStop) (sigWords (lowStrip e.venue) venueStop)
   || (match e.address, s.address with
       | some ea, some sa =>
         !(ea == []) && !(sa == []) && (pyLower (ea.take 10) == pyLower (sa.take 10))
       | _, _ => false))

/-- The duplicate condition of the firemics matcher, factored as the amended
claim states it: same weekday and (venue-word overlap, or at least two
distinct shared significant name words). -/
def fmClaimMatch (s e : MicRecord) : Bool :=
  s.day_of_week == e.day_of_week &&
  (sharesWord (sigWords (lowStrip s.venue) venueStop) (sigWords (lowStrip e.venue) venueStop)
   || (sharesWord (sigWords (lowStrip s.name) nameStop) (sigWords (lowStrip e.name) nameStop)
       && decide (2 ≤ sharedCount (sigWords (lowStrip s.name) nameStop)
            (sigWords (lowStrip e.name) nameStop))))

theorem bsMatch_eq_claim (s e : MicRecord) : bsMatch s e = bsClaimMatch s e := by
  unfold bsMatch bsClaimMatch
  cases hday : s.day_of_week == e.day_of_week <;>
    rcases e.address with _ | ea <;> rcases s.address with _ | sa <;>
    simp [hday, Bool.and_comm, Bool.and_assoc, Bool.and_left_comm]

theorem fmMatch_eq_claim (s e : MicRecord) : fmMatch s e = fmClaimMatch s e := by
  unfold fmMatch fmClaimMatch
  have hsymm : (e.day_of_week == s.day_of_week) = (s.day_of_week == e.day_of_week) := by
    cases h : s.day_of_week == e.day_of_week
    · simp only [beq_eq_false_iff_ne] at h ⊢
      exact fun hh => h hh.symm
    · simp only [beq_iff_eq] at h
      simp [h]
  rw [hsymm]
  cases hday : s.day_of_week == e.day_of_week <;> simp [hday] <;>
    split <;> simp [*]

theorem compareBadslava_fst (sc ex : List MicRecord) :
    (compareBadslava sc ex).1
      = sc.filter (fun s => bsGuard s && !(ex.any (fun e => bsMatch s e))) := by
  induction sc with
  | nil => rfl
  | cons s rest ih =>
    rw [compareBadslava, List.filter_cons]
    by_cases hg : bsGuard s
    · by_cases hm : ex.any (fun e => bsMatch s e)
      · simp [hg, hm, ih]
      · simp [hg, hm, ih]
    · simp [hg, ih]

theorem compareFiremics_fst (sc ex : List MicRecord) :
    (compareFiremics sc ex).1
      = sc.filter (fun s => fmGuard s && !(ex.any (fun e => fmMatch s e))) := by
  induction sc with
  | nil => rfl
  | cons s rest ih =>
    rw [compareFiremics, List.filter_cons]
    by_cases hg : fmGuard s
    · by_cases hm : ex.any (fun e => fmMatch s e)
      · simp [hg, hm, ih]
      · simp [hg, hm, ih]
    · simp [hg, ih]

theorem permAnyEq {α : Type} (p : α → Bool) {l1 l2 : List α} (h : l1.Perm l2) :
    l1.any p = l2.any p := by
  rw [Bool.eq_iff_iff, List.any_eq_true, List.any_eq_true]
  constructor <;> rintro ⟨x, hx, hp⟩
  · exact ⟨x, h.mem_iff.1 hx, hp⟩
  · exact ⟨x, h.mem_iff.2 hx, hp⟩

/-- A transport failure: timeout, connection failure, or a non-2xx
(here: non-200) HTTP status. -/
def isTransportFail {α : Type} : FetchResult α → Prop
  | .status c _ => c ≠ 200
  | _ => True

theorem clTry_not_ok {α : Type} (rs : List (FetchResult α))
    (hf : ∀ f ∈ rs, isTransportFail f) (body : α) :
    clTry rs ≠ .ok body := by
  induction rs with
  | nil => simp [clTry]
  | cons f rest ih =>
    cases f with
    | timeout => simp [clTry]
    | connError => simp [clTry]
    | status c b =>
      have hc : c ≠ 200 := hf (.status c b) (by simp)
      rw [clTry, if_neg hc]
      exact ih (fun f hf' => hf f (by simp [hf']))

theorem clRun_allFail {α : Type} (fetch : Nat → Nat → FetchResult α)
    (parsePage : α → List Char → List MicRecord)
    (hf : ∀ i j, isTransportFail (fetch i j)) (L : List (Nat × List Char)) :
    (clRun fetch parsePage L).mics = []
    ∧ (clRun fetch parsePage L).errors.length = L.length
    ∧ (clRun fetch parsePage L).pages_scraped = 0 := by
  induction L with
  | nil => exact ⟨rfl, rfl, rfl⟩
  | cons p rest ih =>
    obtain ⟨i, day⟩ := p
    have hok := clTry_not_ok [fetch i 0, fetch i 1, fetch i 2]
      (by intro f hmem
          simp only [List.mem_cons, List.not_mem_nil, or_false] at hmem
          rcases hmem with h | h | h <;> subst h
          · exact hf i 0
          · exact hf i 1
          · exact hf i 2)
    cases hts : clTry [fetch i 0, fetch i 1, fetch i 2] with
    | ok body => exact absurd hts (fun hh => hok body hh)
    | timeoutExn =>
      simp only [clRun, hts]
      exact ⟨ih.1, by simp [ih.2.1], ih.2.2⟩
    | connExn =>
      simp only [clRun, hts]
      exact ⟨ih.1, by simp [ih.2.1], ih.2.2⟩
    | exhausted =>
      simp only [clRun, hts]
      exact ⟨ih.1, by simp [ih.2.1], ih.2.2⟩

theorem processJsonLdBlocks_ok (l : List Json) :
    processJsonLdBlocks (l.map .ok) = (l.bind flattenJsonLd, []) := by
  induction l with
  | nil => rfl
  | cons j rest ih => simp [processJsonLdBlocks, ih, List.cons_bind]

set_option maxRecDepth 10000 in
theorem convertFormatRoundTrip : ∀ h ∈ List.range 24, ∀ m ∈ List.range 60,
    convertTo24hr (formatDisplayTime (fmt24 h m)) = fmt24 h m := by decide

/-!  ## Claim theorems -/

/-- C1 (counterexample): the claim's three-clause duplicate relation does not
describe either matcher.  The firemics matcher ignores the address clause:
a pair agreeing on weekday and address prefix (but not venue or name words)
is `claimedMatch`-equal yet classified new.  The badslava matcher ignores the
name clause: a pair with two shared name words is `claimedMatch`-equal yet
classified new. -/
theorem C1_claim_counterexample :
    (claimedMatch
        { venue := some "alpha".toList, name := some "beta".toList,
          day_of_week := "Monday".toList, address := some "123 Main Street".toList }
        { venue := some "gamma".toList, name := some "delta".toList,
          day_of_week := "Monday".toList, address := some "123 Main Street East".toList }
      = true
    ∧ (compareFiremics
        [{ venue := some "alpha".toList, name := some "beta".toList,
           day_of_week := "Monday".toList, address := some "123 Main Street".toList }]
        [{ venue := some "gamma".toList, name := some "delta".toList,
           day_of_week := "Monday".toList, address := some "123 Main Street East".toList }]).1
      = [{ venue := some "alpha".toList, name := some "beta".toList,
           day_of_week := "Monday".toList, address := some "123 Main Street".toList }])
    ∧ (claimedMatch
        { venue := some "aa".toList, name := some "foo bar baz".toList,
          day_of_week := "Monday".toList }
        { venue := some "bb".toList, name := some "foo bar qux".toList,
          day_of_week := "Monday".toList }
      = true
    ∧ (compareBadslava
        [{ venue := some "aa".toList, name := some "foo bar baz".toList,
           day_of_week := "Monday".toList }]
        [{ venue := some "bb".toList, name := some "foo bar qux".toList,
           day_of_week := "Monday".toList }]).1
      = [{ venue := some "aa".toList, name := some "foo bar baz".toList,
           day_of_week := "Monday".toList }]) := by
  decide

/-- C1 (amended): each matcher classifies a guarded fresh record as new
exactly when no existing record satisfies its own two-clause duplicate
condition — venue overlap or address prefix for the badslava variant
(`bsClaimMatch`), venue overlap or two shared name words for the firemics
variant (`fmClaimMatch`) — and records failing the guard are skipped. -/
theorem C1_matcher_characterization (sc ex : List MicRecord) (s : MicRecord) :
    (s ∈ (compareBadslava sc ex).1
      ↔ s ∈ sc ∧ bsGuard s = true ∧ ∀ e ∈ ex, bsClaimMatch s e = false)
    ∧ (s ∈ (compareFiremics sc ex).1
      ↔ s ∈ sc ∧ fmGuard s = true ∧ ∀ e ∈ ex, fmClaimMatch s e = false) := by
  constructor
  · rw [compareBadslava_fst]
    simp only [List.mem_filter, Bool.and_eq_true, Bool.not_eq_true',
      List.any_eq_false, bsMatch_eq_claim, Bool.not_eq_true, and_assoc]
  · rw [compareFiremics_fst]
    simp only [List.mem_filter, Bool.and_eq_true, Bool.not_eq_true',
      List.any_eq_false, fmMatch_eq_claim, Bool.not_eq_true, and_assoc]

/-- C3 (counterexample): on a parse failure `_convert_to_24hr` does not
return the original string unchanged — `"noon"` fails to parse yet comes
back upper-cased as `"NOON"`. -/
theorem C3_claim_counterexample :
    convertTo24hr "noon".toList ≠ "noon".toList
    ∧ convertParse (pyTimeNorm "noon".toList) = none := by decide

/-- C3 (amended): when 24-hour parsing fails, `_convert_to_24hr` returns the
stripped, upper-cased, space-removed form of the input (never discarding the
record); when parsing succeeds it returns a zero-padded 24-hour `HH:MM`
string. -/
theorem C3_passthrough_or_hhmm (s : List Char) :
    (convertParse (pyTimeNorm s) = none → convertTo24hr s = pyTimeNorm s)
    ∧ (∀ h m : Nat, convertParse (pyTimeNorm s) = some (h, m) →
        convertTo24hr s = fmt24 h m ∧ h < 24 ∧ m < 60) := by
  constructor
  · intro hn
    simp [convertTo24hr, hn]
  · intro h m hp
    obtain ⟨hb1, hb2⟩ := convertParse_bound hp
    exact ⟨by simp [convertTo24hr, hp], hb1, hb2⟩

theorem C3_witness :
    (convertTo24hr "abc".toList = pyTimeNorm "abc".toList)
    ∧ (convertTo24hr "7:00pm".toList = fmt24 19 0 ∧ 19 < 24 ∧ 0 < 60) :=
  ⟨(C3_passthrough_or_hhmm "abc".toList).1 (by decide),
   (C3_passthrough_or_hhmm "7:00pm".toList).2 19 0 (by decide)⟩

/-- C5 (counterexample): a fresh record whose weekday matches no existing
record is not always classified new — a record with an empty venue fails the
badslava guard and is skipped (neither matched nor new). -/
theorem C5_claim_counterexample :
    (compareBadslava
        [{ venue := some [], day_of_week := "Monday".toList }]
        [{ venue := some "Green Room".toList, day_of_week := "Tuesday".toList }]).1 = []
    ∧ "Monday".toList ≠ "Tuesday".toList := by decide

/-- C5 (amended): an existing record with a different weekday never matches a
fresh record under either predicate, and a guarded fresh record whose weekday
matches no existing record is always classified new. -/
theorem C5_different_weekday_never_matches :
    (∀ s e : MicRecord, s.day_of_week ≠ e.day_of_week →
        bsMatch s e = false ∧ fmMatch s e = false)
    ∧ (∀ (sc ex : List MicRecord) (s : MicRecord), s ∈ sc → bsGuard s = true →
        (∀ e ∈ ex, e.day_of_week ≠ s.day_of_week) → s ∈ (compareBadslava sc ex).1)
    ∧ (∀ (sc ex : List MicRecord) (s : MicRecord), s ∈ sc → fmGuard s = true →
        (∀ e ∈ ex, e.day_of_week ≠ s.day_of_week) → s ∈ (compareFiremics sc ex).1) := by
  have hbs : ∀ s e : MicRecord, s.day_of_week ≠ e.day_of_week → bsMatch s e = false := by
    intro s e hne
    have hd : (s.day_of_week == e.day_of_week) = false := beq_eq_false_iff_ne.2 hne
    unfold bsMatch
    rcases e.address with _ | ea <;> rcases s.address with _ | sa <;> simp [hd]
  have hfm : ∀ s e : MicRecord, s.day_of_week ≠ e.day_of_week → fmMatch s e = false := by
    intro s e hne
    have hd : (e.day_of_week == s.day_of_week) = false :=
      beq_eq_false_iff_ne.2 (fun hh => hne hh.symm)
    unfold fmMatch
    simp [hd]
  refine ⟨fun s e hne => ⟨hbs s e hne, hfm s e hne⟩, ?_, ?_⟩
  · intro sc ex s hs hg hne
    rw [compareBadslava_fst]
    refine List.mem_filter.2 ⟨hs, ?_⟩
    have hany : ex.any (fun e => bsMatch s e) = false :=
      List.any_eq_false.2 (fun e he => by
        simp [hbs s e (fun hh => hne e he hh.symm)])
    simp [hg, hany]
  · intro sc ex s hs hg hne
    rw [compareFiremics_fst]
    refine List.mem_filter.2 ⟨hs, ?_⟩
    have hany : ex.any (fun e => fmMatch s e) = false :=
      List.any_eq_false.2 (fun e he => by
        simp [hfm s e (fun hh => hne e he hh.symm)])
    simp [hg, hany]

theorem C5_witness :
    ({ venue := some "Green Room".toList, day_of_week := "Tuesday".toList} : MicRecord)
      ∈ (compareBadslava
          [{ venue := some "Green Room".toList, day_of_week := "Tuesday".toList }]
          [{ venue := some "Green Room".toList, day_of_week := "Monday".toList }]).1 :=
  C5_different_weekday_never_matches.2.1
    [{ venue := some "Green Room".toList, day_of_week := "Tuesday".toList }]
    [{ venue := some "Green Room".toList, day_of_week := "Monday".toList }]
    { venue := some "Green Room".toList, day_of_week := "Tuesday".toList }
    (by decide) (by decide) (by decide)

/-- C6: permuting the existing-record set never changes which fresh records
either matcher classifies as new. -/
theorem C6_order_independent (sc ex ex2 : List MicRecord) (h : ex.Perm ex2) :
    (compareBadslava sc ex).1 = (compareBadslava sc ex2).1
    ∧ (compareFiremics sc ex).1 = (compareFiremics sc ex2).1 := by
  constructor
  · rw [compareBadslava_fst, compareBadslava_fst]
    apply List.filter_congr
    intro s _
    rw [permAnyEq (fun e => bsMatch s e) h]
  · rw [compareFiremics_fst, compareFiremics_fst]
    apply List.filter_congr
    intro s _
    rw [permAnyEq (fun e => fmMatch s e) h]

theorem C6_witness :
    (compareBadslava
        [{ venue := some "The Green Room".toList, day_of_week := "Tuesday".toList }]
        [{ venue := some "Green Room Comedy".toList, day_of_week := "Tuesday".toList },
         { venue := some "Other Bar".toList, day_of_week := "Monday".toList }]).1
      = (compareBadslava
        [{ venue := some "The Green Room".toList, day_of_week := "Tuesday".toList }]
        [{ venue := some "Other Bar".toList, day_of_week := "Monday".toList },
         { venue := some "Green Room Comedy".toList, day_of_week := "Tuesday".toList }]).1
    ∧ (compareFiremics
        [{ venue := some "The Green Room".toList, day_of_week := "Tuesday".toList }]
        [{ venue := some "Green Room Comedy".toList, day_of_week := "Tuesday".toList },
         { venue := some "Other Bar".toList, day_of_week := "Monday".toList }]).1
      = (compareFiremics
        [{ venue := some "The Green Room".toList, day_of_week := "Tuesday".toList }]
        [{ venue := some "Other Bar".toList, day_of_week := "Monday".toList },
         { venue := some "Green Room Comedy".toList, day_of_week := "Tuesday".toList }]).1 :=
  C6_order_independent
    [{ venue := some "The Green Room".toList, day_of_week := "Tuesday".toList }]
    [{ venue := some "Green Room Comedy".toList, day_of_week := "Tuesday".toList },
     { venue := some "Other Bar".toList, day_of_week := "Monday".toList }]
    [{ venue := some "Other Bar".toList, day_of_week := "Monday".toList },
     { venue := some "Green Room Comedy".toList, day_of_week := "Tuesday".toList }]
    (List.Perm.swap
      ({ venue := some "Other Bar".toList, day_of_week := "Monday".toList } : MicRecord)
      ({ venue := some "Green Room Comedy".toList, day_of_week := "Tuesday".toList } : MicRecord)
      [])

/-- C7 (counterexample): match-then-insert is not idempotent.  A record whose
venue consists only of stopwords (and with no address, and fewer than two
significant name words) does not match itself: it is classified new, and
after being added to the existing set it is classified new again. -/
theorem C7_claim_counterexample :
    ((compareBadslava
        [{ venue := some "the".toList, name := some "x".toList,
           day_of_week := "Monday".toList }] []).1
      = [{ venue := some "the".toList, name := some "x".toList,
           day_of_week := "Monday".toList }]
    ∧ (compareBadslava
        [{ venue := some "the".toList, name := some "x".toList,
           day_of_week := "Monday".toList }]
        ([] ++ (compareBadslava
          [{ venue := some "the".toList, name := some "x".toList,
             day_of_week := "Monday".toList }] []).1)).1
      = [{ venue := some "the".toList, name := some "x".toList,
           day_of_week := "Monday".toList }])
    ∧ ((compareFiremics
        [{ venue := some "the".toList, name := some "open mic".toList,
           day_of_week := "Monday".toList }] []).1
      = [{ venue := some "the".toList, name := some "open mic".toList,
           day_of_week := "Monday".toList }]
    ∧ (compareFiremics
        [{ venue := some "the".toList, name := some "open mic".toList,
           day_of_week := "Monday".toList }]
        ([] ++ (compareFiremics
          [{ venue := some "the".toList, name := some "open mic".toList,
             day_of_week := "Monday".toList }] []).1)).1
      = [{ venue := some "the".toList, name := some "open mic".toList,
           day_of_week := "Monday".toList }]) := by decide

/-- C7 (amended): match-then-insert is idempotent whenever every fresh record
matches itself under the relevant duplicate predicate (for instance whenever
its venue contains a non-stopword token); inserting the new subset and
re-running the matcher then yields an empty new set. -/
theorem C7_idempotent_for_selfmatching (sc ex : List MicRecord)
    (hbs : ∀ s ∈ sc, bsMatch s s = true) (hfm : ∀ s ∈ sc, fmMatch s s = true) :
    (compareBadslava sc (ex ++ (compareBadslava sc ex).1)).1 = []
    ∧ (compareFiremics sc (ex ++ (compareFiremics sc ex).1)).1 = [] := by
  constructor
  · rw [compareBadslava_fst, List.filter_eq_nil_iff]
    intro s hs
    by_cases hg : bsGuard s
    · by_cases hm : ex.any (fun e => bsMatch s e) = true
      · simp [hg, List.any_append, hm]
      · have hmf : ex.any (fun e => bsMatch s e) = false := by
          revert hm; cases ex.any (fun e => bsMatch s e) <;> simp
        have hmem : s ∈ (compareBadslava sc ex).1 := by
          rw [compareBadslava_fst]
          exact List.mem_filter.2 ⟨hs, by simp [hg, hmf]⟩
        have hany2 : ((compareBadslava sc ex).1).any (fun e => bsMatch s e) = true :=
          List.any_eq_true.2 ⟨s, hmem, hbs s hs⟩
        simp [hg, List.any_append, hany2]
    · simp [hg]
  · rw [compareFiremics_fst, List.filter_eq_nil_iff]
    intro s hs
    by_cases hg : fmGuard s
    · by_cases hm : ex.any (fun e => fmMatch s e) = true
      · simp [hg, List.any_append, hm]
      · have hmf : ex.any (fun e => fmMatch s e) = false := by
          revert hm; cases ex.any (fun e => fmMatch s e) <;> simp
        have hmem : s ∈ (compareFiremics sc ex).1 := by
          rw [compareFiremics_fst]
          exact List.mem_filter.2 ⟨hs, by simp [hg, hmf]⟩
        have hany2 : ((compareFiremics sc ex).1).any (fun e => fmMatch s e) = true :=
          List.any_eq_true.2 ⟨s, hmem, hfm s hs⟩
        simp [hg, List.any_append, hany2]
    · simp [hg]

theorem C7_witness :
    (compareBadslava
        [{ venue := some "Green Room".toList, name := some "Big Funny Show".toList,
           day_of_week := "Monday".toList }]
        ([] ++ (compareBadslava
          [{ venue := some "Green Room".toList, name := some "Big Funny Show".toList,
             day_of_week := "Monday".toList }] []).1)).1 = []
    ∧ (compareFiremics
        [{ venue := some "Green Room".toList, name := some "Big Funny Show".toList,
           day_of_week := "Monday".toList }]
        ([] ++ (compareFiremics
          [{ venue := some "Green Room".toList, name := some "Big Funny Show".toList,
             day_of_week := "Monday".toList }] []).1)).1 = [] :=
  C7_idempotent_for_selfmatching
    [{ venue := some "Green Room".toList, name := some "Big Funny Show".toList,
       day_of_week := "Monday".toList }] []
    (by decide) (by decide)

/-- C8: for every string the 12-hour parser accepts, converting to 24-hour
form, formatting for display, and converting again is the same as a single
conversion: `to24h(to12h(to24h T)) = to24h T`. -/
theorem C8_roundtrip (T : List Char) (h m : Nat)
    (hp : convertParse (pyTimeNorm T) = some (h, m)) :
    convertTo24hr (formatDisplayTime (convertTo24hr T)) = convertTo24hr T := by
  obtain ⟨hb1, hb2⟩ := convertParse_bound hp
  have h1 : convertTo24hr T = fmt24 h m := by simp [convertTo24hr, hp]
  rw [h1]
  exact convertFormatRoundTrip h (List.mem_range.2 hb1) m (List.mem_range.2 hb2)

theorem C8_witness :
    convertTo24hr (formatDisplayTime (convertTo24hr "7:30 pm".toList))
      = convertTo24hr "7:30 pm".toList :=
  C8_roundtrip "7:30 pm".toList 19 30 (by decide)

/-- C2: one undecodable JSON-LD block among several is non-fatal — the loop
records exactly one error string for it and still returns every event
flattened from the well-formed blocks (so the result is nonempty whenever
they contribute any event).  The tameness hypothesis excludes blocks whose
`@graph` value is non-iterable, where the Python would instead raise
`TypeError` past the per-block handler. -/
theorem C2_one_bad_block_nonfatal (pre post : List Json) (e : List Char)
    (htame : ∀ j ∈ pre ++ post, blockRaises j = false) :
    processJsonLdBlocks (pre.map .ok ++ .error e :: post.map .ok)
        = ((pre ++ post).bind flattenJsonLd, [jsonLdErr e])
    ∧ ((pre ++ post).bind flattenJsonLd ≠ [] →
        (processJsonLdBlocks (pre.map .ok ++ .error e :: post.map .ok)).1 ≠ []) := by
  have key : ∀ pre2 : List Json,
      processJsonLdBlocks (pre2.map .ok ++ .error e :: post.map .ok)
        = ((pre2 ++ post).bind flattenJsonLd, [jsonLdErr e]) := by
    intro pre2
    induction pre2 with
    | nil => simp [processJsonLdBlocks, processJsonLdBlocks_ok]
    | cons j rest ih => simp [processJsonLdBlocks, ih, List.cons_bind]
  exact ⟨key pre, fun hne => by rw [key pre]; exact hne⟩

theorem C2_witness :
    processJsonLdBlocks
        ([Json.obj [("@type".toList, Json.str "ComedyEvent".toList)]].map .ok
          ++ .error "Expecting value: line 1 column 1 (char 0)".toList
          :: [Json.obj [("@type".toList, Json.str "Event".toList)]].map .ok)
      = (([Json.obj [("@type".toList, Json.str "ComedyEvent".toList)]]
          ++ [Json.obj [("@type".toList, Json.str "Event".toList)]]).bind flattenJsonLd,
         [jsonLdErr "Expecting value: line 1 column 1 (char 0)".toList]) :=
  (C2_one_bad_block_nonfatal
    [Json.obj [("@type".toList, Json.str "ComedyEvent".toList)]]
    [Json.obj [("@type".toList, Json.str "Event".toList)]]
    "Expecting value: line 1 column 1 (char 0)".toList (by decide)).1

/-- C4 (counterexample): a transport failure is not always fatal-with-one-
error.  A comedy_listings run in which every fetch times out returns zero
records but seven error strings (one per day page), not exactly one. -/
theorem C4_claim_counterexample :
    (scrapeComedyListings (fun _ _ => FetchResult.timeout)
        (fun (_ : Unit) _ => [])).errors.length = 7
    ∧ (scrapeComedyListings (fun _ _ => FetchResult.timeout)
        (fun (_ : Unit) _ => [])).mics = []
    ∧ (scrapeComedyListings (fun _ _ => FetchResult.timeout)
        (fun (_ : Unit) _ => [])).errors.length ≠ 1 := by
  refine ⟨rfl, rfl, by decide⟩

/-- C4 (amended): for the single-page badslava extractor every transport
failure (timeout, connection error, non-200 status) is fatal: zero records
and exactly one error string.  The seven-page comedy_listings extractor
instead records one error per failed page and continues: when every fetch
fails it returns zero records, zero pages and seven error strings. -/
theorem C4_transport_failure_behaviour :
    (scrapeBadslava .timeout = ⟨[], 0, 0, [bsTimeoutErr]⟩)
    ∧ (scrapeBadslava .connError = ⟨[], 0, 0, [bsConnErr]⟩)
    ∧ (∀ (code : Nat) (body : List Char), code ≠ 200 →
        scrapeBadslava (.status code body) = ⟨[], 0, 0, [bsStatusErr code]⟩)
    ∧ (∀ (α : Type) (fetch : Nat → Nat → FetchResult α)
        (parsePage : α → List Char → List MicRecord),
        (∀ i j, isTransportFail (fetch i j)) →
        (scrapeComedyListings fetch parsePage).mics = []
        ∧ (scrapeComedyListings fetch parsePage).errors.length = 7
        ∧ (scrapeComedyListings fetch parsePage).pages_scraped = 0) := by
  refine ⟨rfl, rfl, ?_, ?_⟩
  · intro code body hc
    simp [scrapeBadslava, hc]
  · intro α fetch parsePage hf
    have hrun := clRun_allFail fetch parsePage hf clDays.enum
    refine ⟨hrun.1, ?_, hrun.2.2⟩
    rw [show (scrapeComedyListings fetch parsePage).errors.length
      = (clRun fetch parsePage clDays.enum).errors.length from rfl, hrun.2.1]
    rfl

theorem C4_witness :
    scrapeBadslava (.status 404 []) = ⟨[], 0, 0, [bsStatusErr 404]⟩
    ∧ ((scrapeComedyListings (fun _ _ => FetchResult.connError)
          (fun (_ : Unit) _ => [])).mics = []
       ∧ (scrapeComedyListings (fun _ _ => FetchResult.connError)
          (fun (_ : Unit) _ => [])).errors.length = 7
       ∧ (scrapeComedyListings (fun _ _ => FetchResult.connError)
          (fun (_ : Unit) _ => [])).pages_scraped = 0) :=
  ⟨C4_transport_failure_behaviour.2.2.1 404 [] (by decide),
   C4_transport_failure_behaviour.2.2.2 Unit (fun _ _ => FetchResult.connError)
     (fun _ _ => []) (fun _ _ => True.intro)⟩

/-- C9: the row `add_mic` inserts is the input dict minus its `'id'` and
`'source'` keys; every other key/value pair is kept, unchanged and in order
(the cleaned row is a sublist of the input). -/
theorem C9_add_mic_strips_id_source {V : Type} (d : List (List Char × V)) :
    (∀ kv : List Char × V, kv ∈ addMicClean d
        ↔ (kv ∈ d ∧ kv.1 ≠ "id".toList ∧ kv.1 ≠ "source".toList))
    ∧ (addMicClean d).Sublist d := by
  constructor
  · intro kv
    simp [addMicClean, List.mem_filter, not_or, and_assoc]
  · exact List.filter_sublist d

/-- C10: every record the badslava entry loop emits has a nonempty name (an
empty scraped name is replaced by the venue name plus `" Open Mic"`), a
weekday from the seven valid day names, and a city that matched the fixed
NYC city set; and a successfully-located page produces no error strings, so
skipped entries are silent. -/
theorem C10_badslava_record_invariants :
    (∀ (entry : List Char) (mic : MicRecord), parseBadslavaEntry entry = some mic →
        orEmpty mic.name ≠ []
        ∧ mic.day_of_week ∈ validDays
        ∧ nycCities.any (fun c =>
            containsSub (bsCityLower (pyStrip (stripHtml ((bsFields entry).getD 4 [])))) c) = true
        ∧ (pyStrip (stripHtml ((bsFields entry).getD 1 [])) = [] →
            mic.name = some (pyStrip (stripHtml ((bsFields entry).getD 2 []))
              ++ " Open Mic".toList)))
    ∧ (∀ (body : List Char) (mic : MicRecord),
        mic ∈ (scrapeBadslava (.status 200 body)).mics →
        orEmpty mic.name ≠ [] ∧ mic.day_of_week ∈ validDays)
    ∧ (∀ (body raw : List Char), findVenueArray body = some raw →
        (scrapeBadslava (.status 200 body)).errors = []) := by
  have key : ∀ (entry : List Char) (mic : MicRecord), parseBadslavaEntry entry = some mic →
      orEmpty mic.name ≠ []
      ∧ mic.day_of_week ∈ validDays
      ∧ nycCities.any (fun c =>
          containsSub (bsCityLower (pyStrip (stripHtml ((bsFields entry).getD 4 [])))) c) = true
      ∧ (pyStrip (stripHtml ((bsFields entry).getD 1 [])) = [] →
          mic.name = some (pyStrip (stripHtml ((bsFields entry).getD 2 []))
            ++ " Open Mic".toList)) := by
    intro entry mic h
    simp only [parseBadslavaEntry] at h
    split at h
    · cases h
    · split at h
      · cases h
      · split at h
        · cases h
        · rename_i hlen hnyc hday
          cases h
          refine ⟨?_, ?_, ?_, ?_⟩
          · simp only [orEmpty]
            split
            · exact List.append_ne_nil_of_right_ne_nil _ (by decide)
            · assumption
          · have hc : validDays.contains (pyStrip ((bsFields entry).getD 0 [])) = true := by
              revert hday
              cases validDays.contains (pyStrip ((bsFields entry).getD 0 [])) <;> simp
            exact List.mem_of_elem_eq_true hc
          · revert hnyc
            cases nycCities.any (fun c =>
              containsSub (bsCityLower (pyStrip (stripHtml ((bsFields entry).getD 4 [])))) c) <;>
              simp
          · intro hempty
            rw [if_pos hempty]
  refine ⟨key, ?_, ?_⟩
  · intro body mic hmem
    simp only [scrapeBadslava, ne_eq, not_true_eq_false, if_false, ite_false] at hmem
    split at hmem
    · simp at hmem
    · obtain ⟨entry, -, hp⟩ := List.mem_filterMap.1 hmem
      exact ⟨(key entry mic hp).1, (key entry mic hp).2.1⟩
  · intro body raw hraw
    simp [scrapeBadslava, hraw]

theorem C10_witness :
    orEmpty (some "Mic".toList) ≠ [] ∧ "Monday".toList ∈ validDays :=
  C10_badslava_record_invariants.2.1
    "var venue = [\"Monday<br>Mic<br>Venue<br>Addr<br>Brooklyn, NY<br>7pm\"];".toList
    { name := some "Mic".toList, venue := some "Venue".toList,
      address := some "Addr".toList, borough := some "Brooklyn".toList,
      day_of_week := "Monday".toList, start_time := "19:00".toList,
      display_time := some "7 PM".toList, signup_method := some "in_person".toList,
      source := "badslava".toList }
    (by
      rw [show (scrapeBadslava (FetchResult.status 200
        "var venue = [\"Monday<br>Mic<br>Venue<br>Addr<br>Brooklyn, NY<br>7pm\"];".toList)).mics
        = [{ name := some "Mic".toList, venue := some "Venue".toList,
             address := some "Addr".toList, borough := some "Brooklyn".toList,
             day_of_week := "Monday".toList, start_time := "19:00".toList,
             display_time := some "7 PM".toList, signup_method := some "in_person".toList,
             source := "badslava".toList }] from by decide]
      exact List.mem_singleton.2 rfl)

end ComedyPlatform
